import Mathlib

/-!
Verification of the outstanding-debt reconstruction engine of the
`stealthpriv` repository against its natural-language specification.

The canonical engine (per the spec's design notes) is the Basescan-index
variant in the newer `mappingUtils` module (`src/unnamed/part_014`):
`getOutstandingDebtFromBlockSearch` together with its helpers
`getActualMAVAmountFromEvents`, `decodeTransactionData` and
`searchTransactionsByContractAndMethods`.  The definitions below are a
shallow embedding of that TypeScript code:

* JavaScript `bigint` is modelled as `Int` (`Nat` for values known
  non-negative, such as hex-parsed call parameters);
* JavaScript `number` is modelled as an exact rational (`Rat`); every
  concrete value appearing in the theorems below is exactly representable
  as an IEEE double, so no rounding behaviour is lost;
* a JavaScript `Map` is modelled as an insertion-ordered association list
  (`Map` iteration order is insertion order, which matters for the
  stable sort of the reporter);
* network effects are modelled by passing the observable data in
  (a transaction carries its receipt as an `Option`, discovery consumes a
  script of API responses, the liquidity read is a parameter);
* a `try/catch` that converts a failure into `null` is modelled by
  `Option`, and a thrown error by `Except`.
-/

/-- Models `String.prototype.toLowerCase` on one ASCII character
(`'A'..'Z'`, codes 65-90, map to codes 97-122; everything else is kept).
All strings handled by the engine are ASCII hex strings. -/
def lowerChar (c : Char) : Char :=
  if 65 ≤ c.toNat ∧ c.toNat ≤ 90 then Char.ofNat (c.toNat + 32) else c

/-- Models `s.toLowerCase()` for ASCII strings. -/
def lowerStr (s : String) : String :=
  String.mk (s.data.map lowerChar)

/-- Models `s.slice(a, b)` of JavaScript (characters `a` to `b - 1`). -/
def jsSlice (s : String) (a b : Nat) : String :=
  String.mk ((s.data.drop a).take (b - a))

/-- Models `s.slice(a)` of JavaScript (characters from `a` to the end). -/
def jsSliceFrom (s : String) (a : Nat) : String :=
  String.mk (s.data.drop a)

/-- Value of one hexadecimal digit, `none` for a non-digit. -/
def hexDigit (c : Char) : Option Nat :=
  if 48 ≤ c.toNat ∧ c.toNat ≤ 57 then some (c.toNat - 48)
  else if 97 ≤ c.toNat ∧ c.toNat ≤ 102 then some (c.toNat - 97 + 10)
  else if 65 ≤ c.toNat ∧ c.toNat ≤ 70 then some (c.toNat - 65 + 10)
  else none

/-- Models `BigInt('0x' + s)` : `none` when the digit string is empty or
contains a non-hex character (the `BigInt` call throws, and every caller
catches the throw into a `null`). -/
def hexToNat? (s : List Char) : Option Nat :=
  match s with
  | [] => none
  | _ => s.foldlM (fun acc c => (hexDigit c).map (fun d => acc * 16 + d)) 0

/-- MAV settlement-asset token address (source constant, mixed case). -/
def MAV_TOKEN_ADDRESS : String := "0x64b88c73A5DfA78D1713fE1b4c69a22d7E0faAa7"

/-- Target lending contract address (source constant). -/
def ITOKEN_MANAGER_ADDRESS : String := "0x6aeac03a15f0ed64df5f193c9d6b80e8c856c61c"

/-- Keccak topic of the ERC-20 `Transfer` event (source literal). -/
def TRANSFER_TOPIC : String :=
  "0xddf252ad1be2c89b69c2b068fc378daa952ba7f163c4a11628f55a4df523b3ef"

/-- Selector of `borrowQuote(uint128,uint128)` (METHOD_IDS.BORROW_MAV). -/
def BORROW_MAV : String := "0xa4b3bdfd"

/-- Selector of `borrowQuoteToEth(address,uint128,uint128)` (METHOD_IDS.BORROW_ETH). -/
def BORROW_ETH : String := "0x7407572b"

/-- Selector of `redeemTokenCollateralWithEth(address,uint128,uint128)` (METHOD_IDS.REPAY_ETH). -/
def REPAY_ETH : String := "0x59b34772"

/-- Selector of `redeemTokenCollateral(uint128,uint128,uint128)` (METHOD_IDS.REPAY_MAV). -/
def REPAY_MAV : String := "0xa8b1a5b3"

/-- Models `Object.values(METHOD_IDS)` in source order. -/
def TARGET_METHOD_IDS : List String := [BORROW_MAV, BORROW_ETH, REPAY_ETH, REPAY_MAV]

/-- Unit factor of the settlement asset: `DECIMAL_FACTOR = 10n ** 18n`. -/
def DECIMAL_FACTOR : Nat := 10 ^ 18

/-- Dust threshold literal `1000000000000000000n` (one whole MAV in wei). -/
def DUST_THRESHOLD : Int := 1000000000000000000

/-- One emitted log entry of a transaction receipt, restricted to the
fields the engine reads.  `data` holds the integer encoded by the log's
data word (the source computes it as `BigInt(event.data)`). -/
structure TransferLog where
  address : String
  topic0 : String
  topic1 : Option String
  topic2 : Option String
  data : Int
  deriving DecidableEq, Repr

/-- A candidate transaction as seen by the per-transaction loop of
`getOutstandingDebtFromBlockSearch`, with its full body and the
observable outcome of the receipt fetch.  `sender` is the source field
`tx.from` (`from` is a Lean keyword).  `receipt := none` models
`getTransactionReceipt` throwing (caught into a `null` result). -/
structure Tx where
  txHash : String
  sender : String
  methodId : String
  input : String
  receipt : Option (List TransferLog)
  deriving DecidableEq, Repr

/-- Models the address extracted from an indexed topic:
`log.topics[i] ? '0x' + log.topics[i].slice(26) : ''`. -/
def topicAddr (t : Option String) : String :=
  match t with
  | some s => "0x" ++ jsSliceFrom s 26
  | none => ""

/-- Models the filter condition shared by both log scans of
`getActualMAVAmountFromEvents`: the log is a `Transfer` of the MAV token. -/
def isMAVTransfer (log : TransferLog) : Bool :=
  lowerStr log.address == lowerStr MAV_TOKEN_ADDRESS && log.topic0 == TRANSFER_TOPIC

/-- Shallow embedding of `getActualMAVAmountFromEvents(tx, userAddress)`:
net MAV moved to the user (received minus sent) according to the
receipt's `Transfer` logs; `none` when the receipt fetch failed (the
source catches the error and returns `null`). -/
def getActualMAVAmountFromEvents (tx : Tx) (userAddress : String) : Option Int :=
  match tx.receipt with
  | none => none
  | some logs =>
    let mavToUser := logs.filter (fun log =>
      isMAVTransfer log && (lowerStr (topicAddr log.topic2) == lowerStr userAddress))
    let mavFromUser := logs.filter (fun log =>
      isMAVTransfer log && (lowerStr (topicAddr log.topic1) == lowerStr userAddress))
    let net := mavToUser.foldl (fun s event => s + event.data) 0
    let net := mavFromUser.foldl (fun s event => s - event.data) net
    some net

/-- Shallow embedding of `decodeTransactionData(tx, methodId)`, returning
the `amount` field of its result.  The amount slot of the call input is
sliced out, parsed as hex and divided by `DECIMAL_FACTOR` (BigInt
division of non-negative values truncates like `Nat` division); a parse
failure is caught into `null`.  Note that the source applies no sign:
the result is non-negative for repay selectors as well. -/
def decodeTransactionData (input : String) (methodId : String) : Option Int :=
  if methodId = BORROW_MAV then
    (hexToNat? (jsSlice input 10 74).data).map (fun rawAmount => ((rawAmount / DECIMAL_FACTOR : Nat) : Int))
  else if methodId = BORROW_ETH then
    (hexToNat? (jsSlice input 74 138).data).map (fun rawAmount => ((rawAmount / DECIMAL_FACTOR : Nat) : Int))
  else if methodId = REPAY_ETH then
    (hexToNat? (jsSlice input 74 138).data).map (fun rawAmount => ((rawAmount / DECIMAL_FACTOR : Nat) : Int))
  else if methodId = REPAY_MAV then
    (hexToNat? (jsSlice input 10 74).data).map (fun rawAmount => ((rawAmount / DECIMAL_FACTOR : Nat) : Int))
  else
    none

/-- Amount resolution of one transaction in the per-transaction loop of
`getOutstandingDebtFromBlockSearch` (lines 333-346): the event-derived
amount is used when it is truthy (`if (!actualMAVAmount)` — so `0n` is
treated like `null`), otherwise the input-decoding fallback; `none`
means the loop skips the transaction (`continue`). -/
def resolveAmount (tx : Tx) : Option Int :=
  match getActualMAVAmountFromEvents tx tx.sender with
  | some n => if n = 0 then decodeTransactionData tx.input tx.methodId else some n
  | none => decodeTransactionData tx.input tx.methodId

/-- WalletLedger: a JavaScript `Map<string, bigint>` as an
insertion-ordered association list. -/
abbrev Ledger := List (String × Int)

/-- Models `map.get(k)` (without the `|| 0n` default). -/
def mapGet (m : Ledger) (k : String) : Option Int :=
  match m with
  | [] => none
  | (k', v) :: rest => if k' = k then some v else mapGet rest k

/-- Models `map.set(k, v)` : overwrites in place, else appends (JavaScript
`Map` keeps the original insertion position on overwrite). -/
def mapSet (m : Ledger) (k : String) (v : Int) : Ledger :=
  match m with
  | [] => [(k, v)]
  | (k', v') :: rest => if k' = k then (k', v) :: rest else (k', v') :: mapSet rest k v

/-- Balance read used by the theorems: `map.get(w) || 0n`. -/
def balanceOf (m : Ledger) (w : String) : Int :=
  (mapGet m w).getD 0

/-- One step of the Ledger Aggregator (source lines 349-362): key by the
lowercased sender, add the signed delta to the current balance and floor
the result at zero before storing it. -/
def applySenderDelta (m : Ledger) (sender : String) (amount : Int) : Ledger :=
  let wallet := lowerStr sender
  let currentDebt := (mapGet m wallet).getD 0
  let newDebt := currentDebt + amount
  mapSet m wallet (if newDebt < 0 then 0 else newDebt)

/-- One iteration of the per-transaction loop: resolve the signed delta
and fold it; an unresolvable transaction leaves the ledger unchanged. -/
def aggStep (m : Ledger) (tx : Tx) : Ledger :=
  match resolveAmount tx with
  | none => m
  | some amount => applySenderDelta m tx.sender amount

/-- The full aggregation pass over the discovered transactions. -/
def aggregate (txs : List Tx) : Ledger :=
  txs.foldl aggStep []

/-- The aggregation loop restricted to already-resolved signed deltas
(sender, amount) — the fold the spec's §4.4 describes. -/
def aggregateDeltas (ds : List (String × Int)) : Ledger :=
  ds.foldl (fun m d => applySenderDelta m d.1 d.2) []

/-- LenderData as emitted by the engine: `balance` and `poolPercentage`
are JavaScript numbers, modelled as exact rationals. -/
structure LenderData where
  address : String
  balance : Rat
  poolPercentage : Rat
  deriving DecidableEq, Repr

/-- TopLendersResult, the sole externally visible artifact.  The
`lastUpdated : Date` field (wall-clock time) is not modelled. -/
structure TopLendersResult where
  lenders : List LenderData
  totalLent : Rat
  totalPoolLiquidity : Rat
  tokenAddress : String
  deriving DecidableEq, Repr

/-- Models `Number(wei) / 1e18` (wei-to-MAV conversion). -/
def toMAV (wei : Int) : Rat :=
  (wei : Rat) / 10 ^ 18

/-- The percentage assignment of source lines 394-396:
`totalLent > 0n ? Number((BigInt(Math.floor(balance * 1e18)) * 10000n) / totalLent) / 100 : 0`.
The floor reconstructs the wei value from the MAV-denominated `balance`;
BigInt division of the non-negative operands truncates (`Int.tdiv`).
Note the denominator is `totalLent`, not the pool liquidity. -/
def poolPercentageOf (totalLent : Int) (balance : Rat) : Rat :=
  if 0 < totalLent then
    ((Int.tdiv (⌊balance * (10 : Rat) ^ 18⌋ * 10000) totalLent : Int) : Rat) / 100
  else 0

/-- Shallow embedding of `getOutstandingDebtFromBlockSearch`.  The
discovery step (`searchTransactionsByContractAndMethods` followed by the
per-candidate `getTransaction`/receipt fetches) is an external
interaction; its observable outcome is passed in as `searchResult`
(an `error` models the search throwing after its own fallback failed, in
which case the outer catch rethrows with a prefixed message).  The
liquidity read `getLaunchPoolBalance()` never throws (it falls back to a
constant) and is passed in as `launchPoolBalance`. -/
def getOutstandingDebtFromBlockSearch (searchResult : Except String (List Tx))
    (launchPoolBalance : Int) (tokenAddress : String) : Except String TopLendersResult :=
  match searchResult with
  | .error e => .error ("Method-based search failed: " ++ e)
  | .ok result =>
    if result.length = 0 then
      .ok { lenders := [], totalLent := 0,
            totalPoolLiquidity := toMAV launchPoolBalance, tokenAddress := tokenAddress }
    else
      let outstandingDebts := aggregate result
      let lenders := (outstandingDebts.filter (fun p => DUST_THRESHOLD < p.2)).mergeSort
        (fun a b => b.2 ≤ a.2)
      let totalLent := lenders.foldl (fun sum lender => sum + lender.2) 0
      let lendersInMAV := lenders.map (fun lender =>
        { address := lender.1, balance := toMAV lender.2,
          poolPercentage := poolPercentageOf totalLent (toMAV lender.2) : LenderData })
      .ok { lenders := lendersInMAV, totalLent := toMAV totalLent,
            totalPoolLiquidity := toMAV launchPoolBalance, tokenAddress := tokenAddress }

/-- Projection used by the theorems: the lender list of a run's outcome
(empty for a failed run). -/
def lendersOf (r : Except String TopLendersResult) : List LenderData :=
  match r with
  | .ok res => res.lenders
  | .error _ => []

/-- One raw transaction item of a Basescan `txlist` page.  `sender` is
the source field `tx.from`; `toAddr` is the nullable field `tx.to`. -/
structure RawTx where
  hash : String
  sender : String
  toAddr : Option String
  input : String
  isError : String
  blockNumber : String
  timeStamp : String
  deriving DecidableEq, Repr

/-- A candidate transaction record as pushed by
`searchTransactionsByContractAndMethods` onto `allTransactions`. -/
structure CandTx where
  txHash : String
  sender : String
  methodId : String
  blockNumber : String
  inputLength : Nat
  timeStamp : String
  deriving DecidableEq, Repr

/-- The `result` field of a successful (`status === '1'`) API payload:
an array, a truthy non-array value, or a falsy value (which
`data.result || []` turns into an empty array). -/
inductive ResultPayload where
  | arr (txs : List RawTx)
  | nonArray
  | missing
  deriving DecidableEq, Repr

/-- Observable outcome of one `fetch` of a Basescan page, as
discriminated by the source's handling of `data.status` / `data.message`
(lines 575-615). -/
inductive ApiResponse where
  | success (result : ResultPayload)
  | rateLimited
  | noTxFound
  | statusZeroOther
  | unexpected
  | networkError
  deriving DecidableEq, Repr

/-- Outcome of the inner retry loop for one page, together with the
unconsumed remainder of the response script and the backoff delays (in
milliseconds) the loop awaited. -/
inductive FetchResult where
  | fetched (result : ResultPayload) (rest : List ApiResponse) (delays : List Nat)
  | noMore (rest : List ApiResponse) (delays : List Nat)
  | exhausted (rest : List ApiResponse) (delays : List Nat)
  deriving DecidableEq, Repr

/-- The inner retry loop `while (retries < 3 && !success)` of
`searchTransactionsByContractAndMethods`, consuming one scripted response
per attempt.  `fuel` is `3 - retries` (the loop guard); `retries` is kept
because the rate-limit backoff is `1000 * (retries + 1)` ms, while the
other failure branches wait a constant 1000 ms and only when another
attempt remains (`if (retries < 3)` after `retries++`).  An exhausted
script behaves like a network error. -/
def retryLoopAux (script : List ApiResponse) (retries : Nat) : Nat → FetchResult
  | 0 => .exhausted script []
  | fuel + 1 =>
    let r := match script with
      | [] => ApiResponse.networkError
      | r :: _ => r
    let rest := match script with
      | [] => []
      | _ :: rest => rest
    match r with
    | .success p => .fetched p rest []
    | .noTxFound => .noMore rest []
    | .rateLimited =>
      let d := 1000 * (retries + 1)
      match retryLoopAux rest (retries + 1) fuel with
      | .fetched p rest' ds => .fetched p rest' (d :: ds)
      | .noMore rest' ds => .noMore rest' (d :: ds)
      | .exhausted rest' ds => .exhausted rest' (d :: ds)
    | .statusZeroOther | .unexpected | .networkError =>
      let ds₀ := if retries + 1 < 3 then [1000] else []
      match retryLoopAux rest (retries + 1) fuel with
      | .fetched p rest' ds => .fetched p rest' (ds₀ ++ ds)
      | .noMore rest' ds => .noMore rest' (ds₀ ++ ds)
      | .exhausted rest' ds => .exhausted rest' (ds₀ ++ ds)

/-- The retry loop entered with `retries` failures already recorded. -/
def retryLoop (script : List ApiResponse) (retries : Nat) : FetchResult :=
  retryLoopAux script retries (3 - retries)

/-- The unconsumed remainder of the script after the retry loop. -/
def restOf (r : FetchResult) : List ApiResponse :=
  match r with
  | .fetched _ rest _ => rest
  | .noMore rest _ => rest
  | .exhausted rest _ => rest

/-- The backoff delays awaited by the retry loop. -/
def delaysOf (r : FetchResult) : List Nat :=
  match r with
  | .fetched _ _ ds => ds
  | .noMore _ ds => ds
  | .exhausted _ ds => ds

/-- The per-page filter of lines 644-659: drop reverted calls
(`isError === '1'`), calls not addressed to the target contract, and
calls whose selector (`tx.input ? tx.input.slice(0, 10) : ''`) is not in
the method catalog; keep the candidate record fields. -/
def pageFilter (results : List RawTx) : List CandTx :=
  (results.filter (fun tx =>
    !(tx.isError == "1") &&
    (match tx.toAddr with
     | some t => lowerStr t == lowerStr ITOKEN_MANAGER_ADDRESS
     | none => false) &&
    TARGET_METHOD_IDS.contains (if tx.input == "" then "" else jsSlice tx.input 0 10))).map
    (fun tx =>
      { txHash := tx.hash, sender := tx.sender,
        methodId := (if tx.input == "" then "" else jsSlice tx.input 0 10),
        blockNumber := tx.blockNumber, inputLength := tx.input.data.length,
        timeStamp := tx.timeStamp })

/-- Transactions per page: `OFFSET = 200`. -/
def OFFSET : Nat := 200

/-- Outcome of the primary (Basescan) discovery strategy: either a normal
return of the accumulated candidates or a thrown error (retries
exhausted, or a truthy non-array payload), which the outer catch turns
into the fallback strategy. -/
inductive SearchOutcome where
  | ok (txs : List CandTx) (delays : List Nat)
  | thrown (delays : List Nat)
  deriving DecidableEq, Repr

/-- The outer pagination loop `while (hasMore)` of
`searchTransactionsByContractAndMethods`.  Each page consumes at least
one scripted response, so `script.length + 1` fuel always suffices; a
full page (`results.length === OFFSET`) continues to the next page, a
short or empty page ends pagination normally. -/
def pageLoop (script : List ApiResponse) (acc : List CandTx) : Nat → SearchOutcome
  | 0 => .thrown []
  | fuel + 1 =>
    match retryLoop script 0 with
    | .exhausted _ ds => .thrown ds
    | .noMore _ ds => .ok acc ds
    | .fetched p rest ds =>
      match p with
      | .nonArray => .thrown ds
      | .missing => .ok acc ds
      | .arr results =>
        if results.length = 0 then .ok acc ds
        else
          let acc' := acc ++ pageFilter results
          if results.length = OFFSET then
            match pageLoop rest acc' fuel with
            | .ok txs ds' => .ok txs (ds ++ ds')
            | .thrown ds' => .thrown (ds ++ ds')
          else .ok acc' ds

/-- Shallow embedding of `searchTransactionsByContractAndMethods` : runs
the primary paginated strategy over the scripted responses; when the
primary strategy throws, the catch falls back to
`searchTransactionsByChunkedApproach`, whose result is passed in as
`fallbackResult`.  Returns the candidate list and whether the fallback
was used. -/
def searchTransactionsByContractAndMethods (script : List ApiResponse)
    (fallbackResult : List CandTx) : List CandTx × Bool :=
  match pageLoop script [] (script.length + 1) with
  | .ok txs _ => (txs, false)
  | .thrown _ => (fallbackResult, true)

/-- The backoff delays awaited by the primary strategy over a script. -/
def searchDelays (script : List ApiResponse) : List Nat :=
  match pageLoop script [] (script.length + 1) with
  | .ok _ ds => ds
  | .thrown ds => ds

/-- Floor-at-zero step of the aggregator, named for use in theorem
statements: `if (newDebt < 0n) newDebt = 0n`. -/
def floorZero (n : Int) : Int :=
  if n < 0 then 0 else n

/-- The 32-byte indexed-topic encoding of an address: `0x`, 24 zero
characters of padding, then the 40 address characters. -/
def padTopic (addr : String) : String :=
  "0x" ++ String.mk (List.replicate 24 '0') ++ jsSliceFrom addr 2

/-- Topic of an uninteresting counterparty (the pool), used in the
concrete transactions below. -/
def POOL_TOPIC : String :=
  padTopic "0xffffffffffffffffffffffffffffffffffffffff"

/-- Concrete wallet address used in the concrete scenarios. -/
def W1 : String := "0x00000000000000000000000000000000000000a1"

/-- Second concrete wallet address. -/
def W2 : String := "0x00000000000000000000000000000000000000b2"

/-- Concrete wallet address with upper-case hex letters. -/
def WMIX : String := "0x00000000000000000000000000000000000000C3"

/-- Wallet address whose last character is `c` (used to generate many
distinct wallets). -/
def mkW (c : Char) : String :=
  String.mk (['0', 'x'] ++ List.replicate 39 '0' ++ [c])

/-- A transaction whose receipt shows a single MAV `Transfer` of
`amount` wei from the pool to `sender` (a plain borrow: the event
reconciliation yields `+amount`). -/
def mkBorrowTx (sender : String) (amount : Int) : Tx :=
  { txHash := "0x01", sender := sender, methodId := BORROW_MAV, input := "",
    receipt := some [
      { address := MAV_TOKEN_ADDRESS, topic0 := TRANSFER_TOPIC,
        topic1 := some POOL_TOPIC, topic2 := some (padTopic sender), data := amount } ] }

/-- A transaction whose receipt shows 5 MAV moving to the sender and
5 MAV moving back out (a deliberately zero net), while its call input is
a decodable `borrowQuote` with first parameter 7 MAV (7 * 10^18 wei,
hex `6124fee993bc0000`). -/
def txZeroNet : Tx :=
  { txHash := "0x02", sender := W1, methodId := BORROW_MAV,
    input := "0xa4b3bdfd0000000000000000000000000000000000000000000000006124fee993bc0000",
    receipt := some [
      { address := MAV_TOKEN_ADDRESS, topic0 := TRANSFER_TOPIC,
        topic1 := some POOL_TOPIC, topic2 := some (padTopic W1), data := 5 * 10 ^ 18 },
      { address := MAV_TOKEN_ADDRESS, topic0 := TRANSFER_TOPIC,
        topic1 := some (padTopic W1), topic2 := some POOL_TOPIC, data := 5 * 10 ^ 18 } ] }

/-- A repay transaction (`redeemTokenCollateralWithEth`, selector
`0x59b34772`) whose receipt fetch failed, so the resolver must fall back
to input decoding; the second parameter (the repaid amount slot) encodes
5 MAV (5 * 10^18 wei, hex `4563918244f40000`). -/
def txRepayFallback : Tx :=
  { txHash := "0x03", sender := W1, methodId := REPAY_ETH,
    input := "0x59b34772000000000000000000000000ffffffffffffffffffffffffffffffffffffffff0000000000000000000000000000000000000000000000004563918244f40000",
    receipt := none }

/-- A transaction neither of whose resolution paths yields an amount:
the receipt fetch failed and the selector is not in the catalog. -/
def txUnresolvable : Tx :=
  { txHash := "0x04", sender := W1, methodId := "0xdeadbeef", input := "0xdeadbeef",
    receipt := none }

/-- Eleven borrow transactions from eleven distinct wallets of 2 MAV
each — more than ten wallets above the dust threshold. -/
def txsEleven : List Tx :=
  ['3', '4', '5', '6', '7', '8', '9', 'a', 'b', 'c', 'd'].map
    (fun c => mkBorrowTx (mkW c) (2 * 10 ^ 18))

/-- A response script: three consecutive network errors. -/
def scriptNet3 : List ApiResponse :=
  [.networkError, .networkError, .networkError]

/-- A non-empty stand-in for the result of the fallback
`searchTransactionsByChunkedApproach`, to observe which strategy's
results are returned. -/
def fallbackDemo : List CandTx :=
  [{ txHash := "0xfb", sender := W1, methodId := BORROW_MAV,
     blockNumber := "1", inputLength := 74, timeStamp := "0" }]

theorem mapGet_mapSet_self (m : Ledger) (k : String) (v : Int) :
    mapGet (mapSet m k v) k = some v := by
  induction m with
  | nil => simp [mapSet, mapGet]
  | cons p rest ih =>
    obtain ⟨k', v'⟩ := p
    by_cases h : k' = k
    · simp [mapSet, mapGet, h]
    · simp [mapSet, mapGet, h, ih]

theorem mapGet_mem {m : Ledger} {k : String} {v : Int} (h : mapGet m k = some v) :
    (k, v) ∈ m := by
  induction m with
  | nil => simp [mapGet] at h
  | cons p rest ih =>
    obtain ⟨k', v'⟩ := p
    by_cases hk : k' = k
    · simp [mapGet, hk] at h
      simp [hk, h]
    · simp [mapGet, hk] at h
      exact List.mem_cons_of_mem _ (ih h)

theorem mapSet_forall {P : String × Int → Prop} {m : Ledger} {k : String} {v : Int}
    (hm : ∀ p ∈ m, P p) (hkv : P (k, v)) : ∀ p ∈ mapSet m k v, P p := by
  induction m with
  | nil => simpa [mapSet] using hkv
  | cons q rest ih =>
    obtain ⟨k', v'⟩ := q
    intro p hp
    by_cases h : k' = k
    · simp [mapSet, h] at hp
      rcases hp with hp | hp
      · subst h; simpa [hp] using hkv
      · exact hm _ (List.mem_cons_of_mem _ hp)
    · simp [mapSet, h] at hp
      rcases hp with hp | hp
      · exact hm _ (by simp [hp])
      · exact ih (fun q hq => hm q (List.mem_cons_of_mem _ hq)) _ hp

theorem mapSet_isSome {m : Ledger} {w k : String} {v : Int}
    (h : (mapGet m w).isSome = true) : (mapGet (mapSet m k v) w).isSome = true := by
  by_cases hw : k = w
  · subst hw; simp [mapGet_mapSet_self]
  · induction m with
    | nil => simp [mapGet] at h
    | cons p rest ih =>
      obtain ⟨k', v'⟩ := p
      by_cases hk : k' = k
      · subst hk
        simp [mapGet, hw] at h ⊢
        simpa [mapSet, mapGet, hw] using h
      · by_cases hkw : k' = w
        · simp [mapSet, mapGet, hk, hkw, Ne.symm hw]
        · simp [mapGet, hkw] at h
          simpa [mapSet, mapGet, hk, hkw] using ih h

theorem aggDeltas_nonneg (ds : List (String × Int)) :
    ∀ m : Ledger, (∀ p ∈ m, 0 ≤ p.2) →
      ∀ p ∈ ds.foldl (fun m d => applySenderDelta m d.1 d.2) m, 0 ≤ p.2 := by
  induction ds with
  | nil => intro m hm; simpa using hm
  | cons d ds ih =>
    intro m hm
    refine ih _ (mapSet_forall hm ?_)
    dsimp only
    split <;> omega

theorem lowerChar_idem (c : Char) : lowerChar (lowerChar c) = lowerChar c := by
  by_cases h : 65 ≤ c.toNat ∧ c.toNat ≤ 90
  · have h1 : lowerChar c = Char.ofNat (c.toNat + 32) := by rw [lowerChar, if_pos h]
    rw [h1]
    obtain ⟨h65, h90⟩ := h
    revert h65 h90
    generalize c.toNat = n
    intro h65 h90
    interval_cases n <;> decide
  · have h2 : lowerChar c = c := by rw [lowerChar, if_neg h]
    rw [h2]
    exact h2

theorem lowerStr_idem (s : String) : lowerStr (lowerStr s) = lowerStr s := by
  have key : ∀ l : List Char, (l.map lowerChar).map lowerChar = l.map lowerChar := by
    intro l
    induction l with
    | nil => rfl
    | cons c cs ih => simp [ih, lowerChar_idem]
  exact congrArg String.mk (key s.data)

theorem aggregate_keys_lower (txs : List Tx) :
    ∀ p ∈ aggregate txs, p.1 = lowerStr p.1 := by
  have main : ∀ (txs : List Tx) (m : Ledger), (∀ p ∈ m, p.1 = lowerStr p.1) →
      ∀ p ∈ txs.foldl aggStep m, p.1 = lowerStr p.1 := by
    intro txs
    induction txs with
    | nil => intro m hm; simpa using hm
    | cons tx txs ih =>
      intro m hm
      refine ih _ ?_
      unfold aggStep
      cases resolveAmount tx with
      | none => exact hm
      | some amount => exact mapSet_forall hm (by simp [lowerStr_idem])
  exact main txs [] (by simp)

theorem getOutstanding_ok_eq (txs : List Tx) (lb : Int) (tok : String)
    (h : ¬ txs.length = 0) :
    getOutstandingDebtFromBlockSearch (.ok txs) lb tok =
      .ok { lenders :=
              (((aggregate txs).filter (fun p => DUST_THRESHOLD < p.2)).mergeSort
                (fun a b => b.2 ≤ a.2)).map (fun lender =>
                  { address := lender.1, balance := toMAV lender.2,
                    poolPercentage := poolPercentageOf
                      ((((aggregate txs).filter (fun p => DUST_THRESHOLD < p.2)).mergeSort
                        (fun a b => b.2 ≤ a.2)).foldl (fun sum lender => sum + lender.2) 0)
                      (toMAV lender.2) }),
            totalLent := toMAV
              ((((aggregate txs).filter (fun p => DUST_THRESHOLD < p.2)).mergeSort
                (fun a b => b.2 ≤ a.2)).foldl (fun sum lender => sum + lender.2) 0),
            totalPoolLiquidity := toMAV lb, tokenAddress := tok } := by
  unfold getOutstandingDebtFromBlockSearch
  dsimp only
  rw [if_neg h]

theorem retryLoopAux_consumes (fuel : Nat) :
    ∀ (script : List ApiResponse) (retries : Nat),
      script.length ≤ fuel + (restOf (retryLoopAux script retries fuel)).length := by
  induction fuel with
  | zero => intro script retries; simp [retryLoopAux, restOf]
  | succ fuel ih =>
    intro script retries
    cases script with
    | nil => simp
    | cons r rest =>
      have hrec := ih rest (retries + 1)
      cases r
      case success p => simp [retryLoopAux, restOf]; omega
      case noTxFound => simp [retryLoopAux, restOf]; omega
      case rateLimited =>
        simp only [retryLoopAux, List.length_cons]
        cases h : retryLoopAux rest (retries + 1) fuel <;>
          (rw [h] at hrec; simp only [restOf] at hrec ⊢; omega)
      case statusZeroOther =>
        simp only [retryLoopAux, List.length_cons]
        cases h : retryLoopAux rest (retries + 1) fuel <;>
          (rw [h] at hrec; simp only [restOf] at hrec ⊢; omega)
      case unexpected =>
        simp only [retryLoopAux, List.length_cons]
        cases h : retryLoopAux rest (retries + 1) fuel <;>
          (rw [h] at hrec; simp only [restOf] at hrec ⊢; omega)
      case networkError =>
        simp only [retryLoopAux, List.length_cons]
        cases h : retryLoopAux rest (retries + 1) fuel <;>
          (rw [h] at hrec; simp only [restOf] at hrec ⊢; omega)

theorem one_lt_toMAV {v : Int} (h : DUST_THRESHOLD < v) : (1 : Rat) < toMAV v := by
  unfold toMAV
  rw [one_lt_div (by positivity)]
  have h' : ((1000000000000000000 : Int) : Rat) < (v : Rat) := by exact_mod_cast h
  calc ((10 : Rat) ^ 18) = ((1000000000000000000 : Int) : Rat) := by norm_num
    _ < (v : Rat) := h'

/-- C1: for every sequence of signed deltas folded by the Ledger
Aggregator (the per-transaction loop of
`getOutstandingDebtFromBlockSearch`), every wallet balance of the
resulting ledger is non-negative: the sum is floored at zero at each
step, so the deltas (+50, -80) on one wallet leave balance 0 and
(+100, -30) leave balance 70. -/
theorem ledger_floor_invariant :
    (∀ (ds : List (String × Int)) (w : String), 0 ≤ balanceOf (aggregateDeltas ds) w)
    ∧ balanceOf (aggregateDeltas [(W1, 50), (W1, -80)]) W1 = 0
    ∧ balanceOf (aggregateDeltas [(W1, 100), (W1, -30)]) W1 = 70 := by
  refine ⟨?_, by decide, by decide⟩
  intro ds w
  unfold balanceOf
  cases h : mapGet (aggregateDeltas ds) w with
  | none => simp
  | some v =>
    have hv := aggDeltas_nonneg ds [] (by simp) _ (mapGet_mem h)
    simpa using hv

/-- C8: once a wallet has an entry in the WalletLedger, folding further
deltas never removes it; a repayment meeting the outstanding balance
leaves the wallet present with balance zero. -/
theorem ledger_entry_never_removed :
    (∀ (m : Ledger) (ds : List (String × Int)) (w : String),
      (mapGet m w).isSome = true →
      (mapGet (ds.foldl (fun acc d => applySenderDelta acc d.1 d.2) m) w).isSome = true)
    ∧ mapGet (aggregateDeltas [(W1, 100), (W1, -100)]) W1 = some 0 := by
  refine ⟨?_, by decide⟩
  intro m ds w h
  induction ds generalizing m with
  | nil => simpa using h
  | cons d ds ih => exact ih _ (mapSet_isSome h)

theorem ledger_entry_never_removed_witness :
    (mapGet [(W1, (5 : Int))] W1).isSome = true
    ∧ (mapGet ([(W2, (-7 : Int))].foldl (fun acc d => applySenderDelta acc d.1 d.2)
        [(W1, (5 : Int))]) W1).isSome = true :=
  ⟨by decide, ledger_entry_never_removed.1 [(W1, 5)] [(W2, -7)] W1 (by decide)⟩

/-- C9: a run with zero discovered candidates — and likewise a run whose
ledger is empty after the dust filter (every wallet filtered out) —
yields a valid ResultSet with an empty lender list and totalLent = 0,
not an error, while a discovery failure surfaces as a propagated error;
the two outcomes are distinguishable. -/
theorem empty_discovery_valid_result :
    (∀ (lb : Int) (tok : String),
      getOutstandingDebtFromBlockSearch (.ok []) lb tok =
        .ok { lenders := [], totalLent := 0, totalPoolLiquidity := toMAV lb,
              tokenAddress := tok })
    ∧ (∀ (txs : List Tx) (lb : Int) (tok : String),
        (aggregate txs).filter (fun p => DUST_THRESHOLD < p.2) = [] →
        getOutstandingDebtFromBlockSearch (.ok txs) lb tok =
          .ok { lenders := [], totalLent := 0, totalPoolLiquidity := toMAV lb,
                tokenAddress := tok })
    ∧ (∀ (e : String) (lb : Int) (tok : String),
        getOutstandingDebtFromBlockSearch (.error e) lb tok =
          .error ("Method-based search failed: " ++ e))
    ∧ (∀ (e : String) (lb : Int) (tok : String) (r : TopLendersResult),
        getOutstandingDebtFromBlockSearch (.error e) lb tok ≠ .ok r) := by
  refine ⟨fun _ _ => rfl, ?_, fun _ _ _ => rfl,
    fun _ _ _ _ => by simp [getOutstandingDebtFromBlockSearch]⟩
  intro txs lb tok h
  by_cases h0 : txs.length = 0
  · rw [List.length_eq_zero] at h0
    subst h0
    rfl
  · rw [getOutstanding_ok_eq txs lb tok h0, h]
    simp [toMAV]

theorem empty_discovery_valid_result_witness :
    (aggregate [mkBorrowTx W1 (10 ^ 18)]).filter (fun p => DUST_THRESHOLD < p.2) = []
    ∧ getOutstandingDebtFromBlockSearch (.ok [mkBorrowTx W1 (10 ^ 18)])
        (1500 * 10 ^ 18) "0xtok"
      = .ok { lenders := [], totalLent := 0,
              totalPoolLiquidity := toMAV (1500 * 10 ^ 18), tokenAddress := "0xtok" } :=
  ⟨by decide,
   empty_discovery_valid_result.2.1 [mkBorrowTx W1 (10 ^ 18)] (1500 * 10 ^ 18) "0xtok"
     (by decide)⟩

/-- C10: the Ledger Aggregator keys the ledger by the lowercased sender
address — two deltas whose senders differ only in letter case accumulate
into one entry — and every address in the reported lender list equals
its own lowercasing. -/
theorem ledger_keyed_lowercase :
    (∀ (w1 w2 : String) (a b : Int), lowerStr w1 = lowerStr w2 →
      aggregateDeltas [(w1, a), (w2, b)] = [(lowerStr w1, floorZero (floorZero a + b))])
    ∧ (∀ (txs : List Tx) (lb : Int) (tok : String),
        ((lendersOf (getOutstandingDebtFromBlockSearch (.ok txs) lb tok)).map
          (fun l => l.address)).all (fun addr => addr == lowerStr addr) = true) := by
  constructor
  · intro w1 w2 a b h
    simp only [aggregateDeltas, List.foldl_cons, List.foldl_nil]
    unfold applySenderDelta
    rw [← h]
    simp [mapGet, mapSet, floorZero]
  · intro txs lb tok
    rw [List.all_eq_true]
    intro addr haddr
    rw [List.mem_map] at haddr
    obtain ⟨l, hl, rfl⟩ := haddr
    rw [beq_iff_eq]
    by_cases h0 : txs.length = 0
    · rw [List.length_eq_zero] at h0
      subst h0
      simp [getOutstandingDebtFromBlockSearch, lendersOf] at hl
    · rw [getOutstanding_ok_eq txs lb tok h0] at hl
      dsimp only [lendersOf] at hl
      rw [List.mem_map] at hl
      obtain ⟨p, hp, rfl⟩ := hl
      rw [List.mem_mergeSort] at hp
      exact aggregate_keys_lower txs p (List.mem_filter.mp hp).1

theorem ledger_keyed_lowercase_witness :
    lowerStr "0xAb" = lowerStr "0xaB"
    ∧ aggregateDeltas [("0xAb", (50 : Int)), ("0xaB", (-80 : Int))]
        = [(lowerStr "0xAb", floorZero (floorZero 50 + -80))] :=
  ⟨by decide, ledger_keyed_lowercase.1 "0xAb" "0xaB" 50 (-80) (by decide)⟩

/-- C4 counterexample: a transaction whose transfer events yield a
deliberately zero definite net amount is not resolved to that zero —
`if (!actualMAVAmount)` treats `0n` as absent and the input-decoding
fallback supplies 7 instead. -/
theorem zero_event_result_not_used :
    getActualMAVAmountFromEvents txZeroNet txZeroNet.sender = some 0
    ∧ resolveAmount txZeroNet = some 7
    ∧ ¬ ((7 : Int) = 0) := by decide

/-- C4 (amended): the Amount Resolver prefers transfer-event
reconciliation only for a nonzero net amount; a zero net result — or a
failed receipt fetch — falls back to input decoding; and when neither
path yields a result the transaction contributes no delta and the run
continues (no error propagates). -/
theorem resolver_precedence :
    (∀ (tx : Tx) (n : Int), getActualMAVAmountFromEvents tx tx.sender = some n → ¬ n = 0 →
      resolveAmount tx = some n)
    ∧ (∀ tx : Tx,
        getActualMAVAmountFromEvents tx tx.sender = none ∨
          getActualMAVAmountFromEvents tx tx.sender = some 0 →
        resolveAmount tx = decodeTransactionData tx.input tx.methodId)
    ∧ (∀ (m : Ledger) (tx : Tx), resolveAmount tx = none → aggStep m tx = m) := by
  refine ⟨?_, ?_, ?_⟩
  · intro tx n h hn
    unfold resolveAmount
    rw [h]
    simp [hn]
  · intro tx h
    unfold resolveAmount
    rcases h with h | h
    · rw [h]
    · rw [h]; simp
  · intro m tx h
    unfold aggStep
    rw [h]

theorem resolver_precedence_witness :
    resolveAmount (mkBorrowTx W1 (2 * 10 ^ 18)) = some (2 * 10 ^ 18)
    ∧ resolveAmount txZeroNet = decodeTransactionData txZeroNet.input txZeroNet.methodId
    ∧ aggStep [] txUnresolvable = [] :=
  ⟨resolver_precedence.1 (mkBorrowTx W1 (2 * 10 ^ 18)) (2 * 10 ^ 18) (by decide) (by decide),
   resolver_precedence.2.1 txZeroNet (Or.inr (by decide)),
   resolver_precedence.2.2 [] txUnresolvable (by decide)⟩

/-- C5: evaluation of the input-decoding fallback at a repay transaction
(selector 0x59b34772, receipt unavailable, encoded amount 5 MAV): the
decoded delta is +5 — positive, so the wallet's recorded debt increases
by 5 — although the claim (and the sign convention documented at the
aggregation site) requires a repay to carry a negative, debt-decreasing
delta. -/
theorem repay_fallback_positive_delta :
    resolveAmount txRepayFallback = some 5
    ∧ (0 : Int) < 5
    ∧ balanceOf (aggregate [txRepayFallback]) W1 = 5 := by decide

/-- C7 counterexample: three network-error failures of one page are
retried with a constant 1000 ms delay — the backoff sequence [1000,
1000] is not strictly increasing, contradicting "retried ... with
increasing backoff" for network errors. -/
theorem network_backoff_constant :
    searchDelays scriptNet3 = [1000, 1000]
    ∧ ¬ List.Pairwise (fun a b : Nat => a < b) (searchDelays scriptNet3) :=
  ⟨by decide, by decide⟩

/-- C7 (amended): each page is fetched at most 3 times; rate-limit
failures back off increasingly (1000, 2000, 3000 ms) while other
transient failures wait a constant 1000 ms; exhausting the retries or a
truthy non-array payload makes the primary strategy fail and the
fallback's results are returned, whereas an explicit "No transactions
found" signal ends pagination normally with the primary (empty) result
and no fallback. -/
theorem discovery_retry_and_fallback :
    (∀ script : List ApiResponse, script.length ≤ 3 + (restOf (retryLoop script 0)).length)
    ∧ retryLoop [.rateLimited, .rateLimited, .rateLimited] 0 = .exhausted [] [1000, 2000, 3000]
    ∧ List.Pairwise (fun a b : Nat => a < b)
        (delaysOf (retryLoop [.rateLimited, .rateLimited, .rateLimited] 0))
    ∧ retryLoop scriptNet3 0 = .exhausted [] [1000, 1000]
    ∧ searchTransactionsByContractAndMethods scriptNet3 fallbackDemo = (fallbackDemo, true)
    ∧ searchTransactionsByContractAndMethods [.success .nonArray] fallbackDemo = (fallbackDemo, true)
    ∧ searchTransactionsByContractAndMethods [.noTxFound] fallbackDemo = ([], false) :=
  ⟨fun script => retryLoopAux_consumes 3 script 0,
   by decide, by decide, by decide, by decide, by decide, by decide⟩

/-- C3: evaluation at eleven wallets above the dust threshold — the
reported lender list has eleven entries, so the engine does not truncate
to the top 10 required by the repository's README. -/
theorem no_top_ten_truncation :
    (lendersOf (getOutstandingDebtFromBlockSearch (.ok txsEleven) (1500 * 10 ^ 18) "0xtok")).length = 11
    ∧ ¬ ((lendersOf (getOutstandingDebtFromBlockSearch (.ok txsEleven)
          (1500 * 10 ^ 18) "0xtok")).length ≤ 10) := by
  have h : (lendersOf (getOutstandingDebtFromBlockSearch (.ok txsEleven)
      (1500 * 10 ^ 18) "0xtok")).length = 11 := by
    rw [getOutstanding_ok_eq _ _ _ (by decide)]
    dsimp only [lendersOf]
    rw [List.length_map, List.length_mergeSort]
    decide
  exact ⟨h, by rw [h]; decide⟩

/-- C6 counterexample: a wallet whose ledger balance is exactly one
whole unit (10^18 wei) is filtered out — the reported lender list is
empty — contradicting the claim that such a wallet is retained. -/
theorem exact_one_unit_excluded :
    lendersOf (getOutstandingDebtFromBlockSearch (.ok [mkBorrowTx W1 (10 ^ 18)])
      (1500 * 10 ^ 18) "0xtok") = [] := by
  rw [getOutstanding_ok_eq _ _ _ (by decide)]
  dsimp only [lendersOf]
  rw [show (aggregate [mkBorrowTx W1 (10 ^ 18)]).filter (fun p => DUST_THRESHOLD < p.2) = []
    from by decide]
  simp

/-- C6 (amended): every reported lender's balance is strictly greater
than one whole unit, and the reported addresses are exactly (as a
permutation) the ledger wallets whose balance strictly exceeds the dust
threshold — a wallet at or below one whole unit is filtered out. -/
theorem dust_filter_strict (txs : List Tx) (lb : Int) (tok : String) :
    ((lendersOf (getOutstandingDebtFromBlockSearch (.ok txs) lb tok)).all
      (fun l => decide ((1 : Rat) < l.balance)) = true)
    ∧ ((lendersOf (getOutstandingDebtFromBlockSearch (.ok txs) lb tok)).map
        (fun l => l.address)).Perm
      (((aggregate txs).filter (fun p => DUST_THRESHOLD < p.2)).map (fun p => p.1)) := by
  by_cases h0 : txs.length = 0
  · rw [List.length_eq_zero] at h0
    subst h0
    constructor
    · simp [getOutstandingDebtFromBlockSearch, lendersOf]
    · simp [getOutstandingDebtFromBlockSearch, lendersOf, aggregate]
  · rw [getOutstanding_ok_eq txs lb tok h0]
    dsimp only [lendersOf]
    constructor
    · rw [List.all_eq_true]
      intro l hl
      rw [List.mem_map] at hl
      obtain ⟨p, hp, rfl⟩ := hl
      rw [List.mem_mergeSort] at hp
      have hd := of_decide_eq_true (List.mem_filter.mp hp).2
      simpa using one_lt_toMAV hd
    · rw [List.map_map]
      exact (List.mergeSort_perm _ _).map _

/-- C2: evaluation at the claim's own scenario — ledger balances of 100
and 50 whole units for two wallets, pool liquidity 1500.  The engine
reports poolPercentage 66.66 for the first wallet and 33.33 for the
second: the denominator of the percentage computation is totalLent (the
sum of retained balances, here 150), not totalPoolLiquidity, so the
claimed value balance / liquidity * 100 (6.67 for the first wallet) is
not produced. -/
theorem pool_percentage_totalLent_denominator :
    lendersOf (getOutstandingDebtFromBlockSearch
        (.ok [mkBorrowTx W1 (100 * 10 ^ 18), mkBorrowTx W2 (50 * 10 ^ 18)])
        (1500 * 10 ^ 18) "0xtok")
      = [{ address := W1, balance := 100, poolPercentage := 3333 / 50 },
         { address := W2, balance := 50, poolPercentage := 3333 / 100 }]
    ∧ ¬ ((3333 : Rat) / 50 = 100 / 1500 * 100) := by
  constructor
  · rw [getOutstanding_ok_eq _ _ _ (by decide)]
    dsimp only [lendersOf]
    rw [show aggregate [mkBorrowTx W1 (100 * 10 ^ 18), mkBorrowTx W2 (50 * 10 ^ 18)]
        = [(W1, 100 * 10 ^ 18), (W2, 50 * 10 ^ 18)] from by decide]
    rw [show ([(W1, (100 * 10 ^ 18 : Int)), (W2, 50 * 10 ^ 18)]).filter
        (fun p => DUST_THRESHOLD < p.2) = [(W1, 100 * 10 ^ 18), (W2, 50 * 10 ^ 18)]
      from by decide]
    rw [List.mergeSort_of_sorted (by decide)]
    norm_num [toMAV, poolPercentageOf, Int.tdiv]
  · norm_num
